import Mathlib

/- Shallow embedding of the munzip ZIP reader (src/lib.rs together with the
   record layouts of src/types.rs).

   A seekable byte store (std::fs::File in the source) is modelled as a total
   byte function together with a size; the file cursor is threaded explicitly
   as a natural number.  Machine integers are Nat with explicit reductions: a
   byte access is taken mod 256, and every multi-byte field is assembled
   little-endian, exactly what the unsafe ptr::read of the packed record types
   yields on a little-endian target (the layouts of section 6 of the spec).

   MZError is a plain String wrapper, so errors are modelled as the String
   messages the code builds.  Messages produced by external collaborators and
   converted with err.to_string() (std::io::Error on a failed read, and
   std::str::Utf8Error from std::str::from_utf8) are runtime-dependent texts;
   they are modelled by the fixed stand-in constants msgIoError and
   msgInvalidUtf8.  The DEFLATE decoder inflate::inflate_bytes is an external
   dependency; every definition that needs it takes an arbitrary
   inflate : List Nat -> Except String (List Nat) as a parameter.

   The process-wide scratch buffer guarded by a Mutex only ever receives the
   central-directory filename bytes and a null terminator (ZipIterator::next,
   lines 231-233); its contents are never read back and do not influence any
   result, so the model does not carry it.  Likewise eprintln in process_file
   writes to stderr only and is dropped.  File::read (line 227, the plain
   short-read variant) is modelled as a total operation returning the bytes
   available, and a failed read_exact leaves the cursor at the end of the
   available bytes. -/

structure ByteStream where
  size : Nat
  data : Nat → Nat

/-- One byte of the store; the mod 256 makes the model total on arbitrary
Nat-valued data functions. -/
def ByteStream.byte (s : ByteStream) (p : Nat) : Nat := s.data p % 256

/-- Little-endian 16-bit field at offset p, as ptr::read of a packed u16. -/
def le16 (s : ByteStream) (p : Nat) : Nat := s.byte p + 256 * s.byte (p + 1)

/-- Little-endian 32-bit field at offset p, as ptr::read of a packed u32 and
as the explicit shift-or in jz_read_end_record (src/lib.rs lines 52-55). -/
def le32 (s : ByteStream) (p : Nat) : Nat :=
  s.byte p + 256 * s.byte (p + 1) + 65536 * s.byte (p + 2) + 16777216 * s.byte (p + 3)

/-- The n bytes starting at offset p, in order (a read_exact result). -/
def bytesFrom (s : ByteStream) (p n : Nat) : List Nat :=
  (List.range n).map (fun i => s.byte (p + i))

def JZ_BUFFER_SIZE : Nat := 65536
def JZ_END_RECORD_SIGNATURE : Nat := 0x06054B50
def JZ_GLOBAL_FILE_HEADER_SIGNATURE : Nat := 0x02014B50
def JZ_LOCAL_FILE_HEADER_SIGNATURE : Nat := 0x04034B50

/-- size_of JZEndRecord: 4+2+2+2+2+4+4+2 packed bytes. -/
def END_RECORD_SIZE : Nat := 22

/-- size_of JZGlobalFileHeader: 46 packed bytes. -/
def GLOBAL_FILE_HEADER_SIZE : Nat := 46

/-- size_of JZLocalFileHeader: 30 packed bytes. -/
def LOCAL_FILE_HEADER_SIZE : Nat := 30

def msgFileTooSmall : String := "input file too small"
def msgSignatureNotFound : String := "end record signature not found in zip"
def msgMultiDisk : String := "multifile zips not supported!"

/-- The message jz_read_local_file_header_raw produces both on a signature
mismatch (line 125) and, verbatim, on the Store-method size mismatch
(line 137) of src/lib.rs. -/
def msgInvalidLocalSignature : String := "invalid local file header signature"

def msgInvalidGlobalSignature : String := "invalid global file header signature"
def msgFileNameTooLong : String := "file name too long"

def msgUnsupportedMethod (m : Nat) : String :=
  "compression method " ++ toString m ++ " not supported"

/-- Stand-in for the runtime-dependent std::io::Error text wrapped by MZError. -/
def msgIoError : String := "io error"

/-- Stand-in for the runtime-dependent std::str::Utf8Error text wrapped by
MZError. -/
def msgInvalidUtf8 : String := "invalid utf-8"

structure JZEndRecord where
  signature : Nat
  disk_number : Nat
  central_directory_disk_number : Nat
  num_entries_this_disk : Nat
  num_entries : Nat
  central_directory_size : Nat
  central_directory_offset : Nat
  zip_comment_length : Nat
  deriving DecidableEq

structure JZLocalFileHeader where
  signature : Nat
  version_needed_to_extract : Nat
  general_purpose_bit_flag : Nat
  compression_method : Nat
  last_mod_file_time : Nat
  last_mod_file_date : Nat
  crc32 : Nat
  compressed_size : Nat
  uncompressed_size : Nat
  file_name_length : Nat
  extra_field_length : Nat
  deriving DecidableEq

structure JZGlobalFileHeader where
  signature : Nat
  version_made_by : Nat
  version_needed_to_extract : Nat
  general_purpose_bit_flag : Nat
  compression_method : Nat
  last_mod_file_time : Nat
  last_mod_file_date : Nat
  crc32 : Nat
  compressed_size : Nat
  uncompressed_size : Nat
  file_name_length : Nat
  extra_field_length : Nat
  file_comment_length : Nat
  disk_number_start : Nat
  internal_file_attributes : Nat
  external_file_attributes : Nat
  relative_offset_of_local_header : Nat
  deriving DecidableEq

/-- The summary header type the iterator hands around (JZFileHeader in
src/lib.rs, InternalHeader in src/types.rs). -/
structure JZFileHeader where
  compression_method : Nat
  last_mod_file_time : Nat
  last_mod_file_date : Nat
  crc32 : Nat
  compressed_size : Nat
  uncompressed_size : Nat
  offset : Nat
  deriving DecidableEq

/-- ptr::read of a packed JZEndRecord from the bytes at offset p. -/
def decodeEndRecord (s : ByteStream) (p : Nat) : JZEndRecord where
  signature := le32 s p
  disk_number := le16 s (p + 4)
  central_directory_disk_number := le16 s (p + 6)
  num_entries_this_disk := le16 s (p + 8)
  num_entries := le16 s (p + 10)
  central_directory_size := le32 s (p + 12)
  central_directory_offset := le32 s (p + 16)
  zip_comment_length := le16 s (p + 20)

/-- ptr::read of a packed JZLocalFileHeader from the bytes at offset p. -/
def decodeLocalFileHeader (s : ByteStream) (p : Nat) : JZLocalFileHeader where
  signature := le32 s p
  version_needed_to_extract := le16 s (p + 4)
  general_purpose_bit_flag := le16 s (p + 6)
  compression_method := le16 s (p + 8)
  last_mod_file_time := le16 s (p + 10)
  last_mod_file_date := le16 s (p + 12)
  crc32 := le32 s (p + 14)
  compressed_size := le32 s (p + 18)
  uncompressed_size := le32 s (p + 22)
  file_name_length := le16 s (p + 26)
  extra_field_length := le16 s (p + 28)

/-- ptr::read of a packed JZGlobalFileHeader from the bytes at offset p. -/
def decodeGlobalFileHeader (s : ByteStream) (p : Nat) : JZGlobalFileHeader where
  signature := le32 s p
  version_made_by := le16 s (p + 4)
  version_needed_to_extract := le16 s (p + 6)
  general_purpose_bit_flag := le16 s (p + 8)
  compression_method := le16 s (p + 10)
  last_mod_file_time := le16 s (p + 12)
  last_mod_file_date := le16 s (p + 14)
  crc32 := le32 s (p + 16)
  compressed_size := le32 s (p + 20)
  uncompressed_size := le32 s (p + 24)
  file_name_length := le16 s (p + 28)
  extra_field_length := le16 s (p + 30)
  file_comment_length := le16 s (p + 32)
  disk_number_start := le16 s (p + 34)
  internal_file_attributes := le16 s (p + 36)
  external_file_attributes := le32 s (p + 38)
  relative_offset_of_local_header := le32 s (p + 42)

/-- The number of tail bytes jz_read_end_record reads into its buffer:
min(file_size, JZ_BUFFER_SIZE), written as in src/lib.rs lines 34-38. -/
def readBytesLen (s : ByteStream) : Nat :=
  if s.size < JZ_BUFFER_SIZE then s.size else JZ_BUFFER_SIZE

/-- Absolute file offset of the first byte of the tail buffer. -/
def scanBase (s : ByteStream) : Nat := s.size - readBytesLen s

/-- The backward scan of jz_read_end_record (src/lib.rs lines 49-60):
for i in (0..=len-record_sz).rev(), return the first i whose four bytes at
base+i form the end-record signature.  n is the highest candidate index. -/
def findSigFrom (s : ByteStream) (base : Nat) : Nat → Option Nat
  | 0 => if le32 s base = JZ_END_RECORD_SIGNATURE then some 0 else none
  | n + 1 =>
    if le32 s (base + (n + 1)) = JZ_END_RECORD_SIGNATURE then some (n + 1)
    else findSigFrom s base n

/-- jz_read_end_record (src/lib.rs lines 22-76).  The initial seeks and the
read of the tail window into the scratch buffer always succeed (the window is
within the file by construction), so no IoFailure path remains. -/
def jz_read_end_record (s : ByteStream) : Except String JZEndRecord :=
  if s.size ≤ END_RECORD_SIZE then Except.error msgFileTooSmall
  else
    match findSigFrom s (scanBase s) (readBytesLen s - END_RECORD_SIZE) with
    | none => Except.error msgSignatureNotFound
    | some i =>
      let er := decodeEndRecord s (scanBase s + i)
      if er.disk_number ≠ 0 ∨ er.central_directory_disk_number ≠ 0
          ∨ er.num_entries ≠ er.num_entries_this_disk then
        Except.error msgMultiDisk
      else Except.ok er

/-- Continuation byte test of the UTF-8 validation performed by
std::str::from_utf8. -/
def isUtf8Cont (b : Nat) : Bool := decide (0x80 ≤ b) && decide (b ≤ 0xBF)

/-- The UTF-8 validity check std::str::from_utf8 runs on the filename bytes
(rejecting overlong forms, surrogates and code points above 0x10FFFF). -/
def validUtf8 : List Nat → Bool
  | [] => true
  | b :: l =>
    if b ≤ 0x7F then validUtf8 l
    else if b < 0xC2 then false
    else if b ≤ 0xDF then
      match l with
      | c1 :: l2 => isUtf8Cont c1 && validUtf8 l2
      | [] => false
    else if b ≤ 0xEF then
      match l with
      | c1 :: c2 :: l2 =>
        (if b = 0xE0 then decide (0xA0 ≤ c1) && decide (c1 ≤ 0xBF)
         else if b = 0xED then decide (0x80 ≤ c1) && decide (c1 ≤ 0x9F)
         else isUtf8Cont c1) && isUtf8Cont c2 && validUtf8 l2
      | _ => false
    else if b ≤ 0xF4 then
      match l with
      | c1 :: c2 :: c3 :: l2 =>
        (if b = 0xF0 then decide (0x90 ≤ c1) && decide (c1 ≤ 0xBF)
         else if b = 0xF4 then decide (0x80 ≤ c1) && decide (c1 ≤ 0x8F)
         else isUtf8Cont c1) && isUtf8Cont c2 && isUtf8Cont c3 && validUtf8 l2
      | _ => false
    else false

/-- Cursor position after a failed read_exact: the read consumes the bytes
still available before reporting the failure. -/
def eofPos (s : ByteStream) (pos : Nat) : Nat := max pos s.size

/-- jz_read_local_file_header_raw (src/lib.rs lines 117-141), returning the
raw header, the filename bytes, and the cursor position after the call.
Note line 137 of the source: the Store-method size mismatch produces the same
message text as the signature mismatch of line 125. -/
def jz_read_local_file_header_raw (s : ByteStream) (pos : Nat) :
    Except String (JZLocalFileHeader × List Nat) × Nat :=
  if pos + LOCAL_FILE_HEADER_SIZE ≤ s.size then
    if (decodeLocalFileHeader s pos).signature ≠ JZ_LOCAL_FILE_HEADER_SIGNATURE then
      (Except.error msgInvalidLocalSignature, pos + LOCAL_FILE_HEADER_SIZE)
    else if pos + LOCAL_FILE_HEADER_SIZE + (decodeLocalFileHeader s pos).file_name_length ≤ s.size then
      if validUtf8 (bytesFrom s (pos + LOCAL_FILE_HEADER_SIZE)
          (decodeLocalFileHeader s pos).file_name_length) then
        if (decodeLocalFileHeader s pos).compression_method = 0 ∧
            (decodeLocalFileHeader s pos).compressed_size ≠
              (decodeLocalFileHeader s pos).uncompressed_size then
          (Except.error msgInvalidLocalSignature,
            pos + LOCAL_FILE_HEADER_SIZE + (decodeLocalFileHeader s pos).file_name_length
              + (decodeLocalFileHeader s pos).extra_field_length)
        else
          (Except.ok (decodeLocalFileHeader s pos,
              bytesFrom s (pos + LOCAL_FILE_HEADER_SIZE)
                (decodeLocalFileHeader s pos).file_name_length),
            pos + LOCAL_FILE_HEADER_SIZE + (decodeLocalFileHeader s pos).file_name_length
              + (decodeLocalFileHeader s pos).extra_field_length)
      else
        (Except.error msgInvalidUtf8,
          pos + LOCAL_FILE_HEADER_SIZE + (decodeLocalFileHeader s pos).file_name_length)
    else (Except.error msgIoError, eofPos s (pos + LOCAL_FILE_HEADER_SIZE))
  else (Except.error msgIoError, eofPos s pos)

/-- The JZFileHeader jz_read_local_file_header builds from the raw local
header (src/lib.rs lines 104-112); the offset field is set to 0. -/
def mkLocalJZFileHeader (lh : JZLocalFileHeader) : JZFileHeader where
  compression_method := lh.compression_method
  last_mod_file_time := lh.last_mod_file_time
  last_mod_file_date := lh.last_mod_file_date
  crc32 := lh.crc32
  compressed_size := lh.compressed_size
  uncompressed_size := lh.uncompressed_size
  offset := 0

/-- jz_read_local_file_header (src/lib.rs lines 101-115). -/
def jz_read_local_file_header (s : ByteStream) (pos : Nat) :
    Except String (JZFileHeader × List Nat) × Nat :=
  match jz_read_local_file_header_raw s pos with
  | (Except.ok (lh, filename), pos1) => (Except.ok (mkLocalJZFileHeader lh, filename), pos1)
  | (Except.error e, pos1) => (Except.error e, pos1)

/-- Type of the external DEFLATE decoder inflate::inflate_bytes. -/
abbrev Inflate := List Nat → Except String (List Nat)

/-- jz_read_data (src/lib.rs lines 78-99).  Returns the produced bytes (or
the error) and the cursor position after the call.  In the Deflate branch the
inflate result (ok bytes, or its String error propagated by the question-mark
operator) is returned unchanged. -/
def jz_read_data (inflate : Inflate) (s : ByteStream) (pos : Nat) (header : JZFileHeader) :
    Except String (List Nat) × Nat :=
  if header.compression_method = 0 then
    if pos + header.uncompressed_size ≤ s.size then
      (Except.ok (bytesFrom s pos header.uncompressed_size), pos + header.uncompressed_size)
    else (Except.error msgIoError, eofPos s pos)
  else if header.compression_method = 8 then
    if pos + header.compressed_size ≤ s.size then
      (inflate (bytesFrom s pos header.compressed_size), pos + header.compressed_size)
    else (Except.error msgIoError, eofPos s pos)
  else (Except.error (msgUnsupportedMethod header.compression_method), pos)

/-- The iterator state (struct ZipIterator, src/lib.rs lines 143-148): the
file cursor, the filename slot, the end record and the entry cursor. -/
structure ZipIterator where
  pos : Nat
  filename : Option (List Nat)
  end_rec : JZEndRecord
  next_entry : Nat
  deriving DecidableEq

/-- The output unit (struct ZipEntry, src/lib.rs lines 275-279). -/
structure ZipEntry where
  header : JZFileHeader
  buffer : List Nat
  filename : List Nat
  deriving DecidableEq

/-- ZipEntry::header (src/lib.rs lines 282-285): the body discards the header
field and returns the unit value. -/
def ZipEntry.headerAccessor (_ : ZipEntry) : Unit := ()

/-- ZipEntry::buffer (src/lib.rs lines 286-288). -/
def ZipEntry.bufferAccessor (e : ZipEntry) : List Nat := e.buffer

/-- ZipEntry::filename (src/lib.rs lines 289-291). -/
def ZipEntry.filenameAccessor (e : ZipEntry) : List Nat := e.filename

/-- ZipIterator::new (src/lib.rs lines 151-163): locate the end record and
seek to the central directory offset. -/
def ZipIterator.new (s : ByteStream) : Except String ZipIterator :=
  match jz_read_end_record s with
  | Except.error e => Except.error e
  | Except.ok er =>
    Except.ok { pos := er.central_directory_offset, filename := none,
                end_rec := er, next_entry := 0 }

/-- ZipIterator::process_file (src/lib.rs lines 177-189): read the local
header, then the payload; on success record the local filename in the
iterator.  An error is returned together with the iterator state it leaves
behind (the cursor stays where the failing operation stopped). -/
def process_file (inflate : Inflate) (s : ByteStream) (it : ZipIterator) :
    Except (String × ZipIterator) (List Nat × ZipIterator) :=
  match jz_read_local_file_header s it.pos with
  | (Except.error e, pos1) => Except.error (e, { it with pos := pos1 })
  | (Except.ok (header, filename), pos1) =>
    match jz_read_data inflate s pos1 header with
    | (Except.error e, pos2) => Except.error (e, { it with pos := pos2 })
    | (Except.ok data, pos2) =>
      Except.ok (data, { it with pos := pos2, filename := some filename })

/-- ZipIterator::record_callback (src/lib.rs lines 165-175): save the cursor,
seek to the entry's local header, process it, and seek back — but only on
success: the question-mark operator on process_file propagates an error
before the restoring seek runs. -/
def record_callback (inflate : Inflate) (s : ByteStream) (it : ZipIterator)
    (header : JZFileHeader) : Except (String × ZipIterator) (List Nat × ZipIterator) :=
  match process_file inflate s { it with pos := header.offset } with
  | Except.ok (data, it1) => Except.ok (data, { it1 with pos := it.pos })
  | Except.error e => Except.error e

/-- The JZFileHeader ZipIterator::next builds from the central-directory
record (src/lib.rs lines 249-257). -/
def mkGlobalJZFileHeader (fh : JZGlobalFileHeader) : JZFileHeader where
  compression_method := fh.compression_method
  last_mod_file_time := fh.last_mod_file_time
  last_mod_file_date := fh.last_mod_file_date
  crc32 := fh.crc32
  compressed_size := fh.compressed_size
  uncompressed_size := fh.uncompressed_size
  offset := fh.relative_offset_of_local_header

deriving instance DecidableEq for Except

/-- Result of one call to ZipIterator::next.  done models the Rust None,
item models Some(result) together with the successor state, and panicked
models the two diverging paths: the panic on next_entry > num_entries
(line 198) and the unwrap of the filename slot (line 262). -/
inductive StepResult where
  | done : StepResult
  | panicked : StepResult
  | item : Except String ZipEntry → ZipIterator → StepResult
  deriving DecidableEq

/-- Cursor position after one central-directory record: past the fixed
record, past the filename bytes File::read could deliver (a short read stops
at end of file), and past the extra-field and comment seeks. -/
def cdAdvancePos (s : ByteStream) (p : Nat) : Nat :=
  p + GLOBAL_FILE_HEADER_SIZE
    + min (decodeGlobalFileHeader s p).file_name_length (s.size - (p + GLOBAL_FILE_HEADER_SIZE))
    + (decodeGlobalFileHeader s p).extra_field_length
    + (decodeGlobalFileHeader s p).file_comment_length

/-- The body of ZipIterator::next past the two entry-cursor checks
(src/lib.rs lines 205-272): read and validate one central-directory record,
read the declared-length filename with the short-read File::read (the bytes
go to the scratch buffer and are never used), skip the extra field and the
comment, and run the local-header detour. -/
def nextEntryStep (inflate : Inflate) (s : ByteStream) (it : ZipIterator) : StepResult :=
  if it.pos + GLOBAL_FILE_HEADER_SIZE ≤ s.size then
    if (decodeGlobalFileHeader s it.pos).signature ≠ JZ_GLOBAL_FILE_HEADER_SIGNATURE then
      StepResult.item (Except.error msgInvalidGlobalSignature)
        { it with pos := it.pos + GLOBAL_FILE_HEADER_SIZE }
    else if (decodeGlobalFileHeader s it.pos).file_name_length + 1 ≥ JZ_BUFFER_SIZE then
      StepResult.item (Except.error msgFileNameTooLong)
        { it with pos := it.pos + GLOBAL_FILE_HEADER_SIZE }
    else
      match record_callback inflate s { it with pos := cdAdvancePos s it.pos }
          (mkGlobalJZFileHeader (decodeGlobalFileHeader s it.pos)) with
      | Except.ok (data, it1) =>
        match it1.filename with
        | some filename =>
          StepResult.item
            (Except.ok { header := mkGlobalJZFileHeader (decodeGlobalFileHeader s it.pos),
                         buffer := data, filename := filename })
            { it1 with next_entry := it1.next_entry + 1 }
        | none => StepResult.panicked
      | Except.error (e, it1) => StepResult.item (Except.error e) it1
  else StepResult.item (Except.error msgIoError) { it with pos := eofPos s it.pos }

/-- ZipIterator::next (src/lib.rs lines 195-272): panic when the entry cursor
has run past the entry count, None at the entry count, otherwise one
central-directory step. -/
def ZipIterator.next (inflate : Inflate) (s : ByteStream) (it : ZipIterator) : StepResult :=
  if it.next_entry > it.end_rec.num_entries then StepResult.panicked
  else if it.next_entry = it.end_rec.num_entries then StepResult.done
  else nextEntryStep inflate s it

/-- How a fueled run of the iterator ended. -/
inductive RunEnd where
  | outOfFuel : RunEnd
  | finished : RunEnd
  | panicEnd : RunEnd
  deriving DecidableEq

/-- Drive ZipIterator::next repeatedly, collecting the yielded items, until
it returns None (finished), diverges (panicEnd), or the fuel runs out.  Since
next is a pure function of the state and the terminal state is unchanged by
next, finished means every further call would keep returning None. -/
def runWalker (inflate : Inflate) (s : ByteStream) :
    ZipIterator → Nat → List (Except String ZipEntry) × RunEnd
  | _, 0 => ([], RunEnd.outOfFuel)
  | it, fuel + 1 =>
    match ZipIterator.next inflate s it with
    | StepResult.done => ([], RunEnd.finished)
    | StepResult.panicked => ([], RunEnd.panicEnd)
    | StepResult.item e it1 =>
      (e :: (runWalker inflate s it1 fuel).1, (runWalker inflate s it1 fuel).2)

/-- The states an iterator can visit: the start state and everything obtained
from it by steps that yield an item. -/
inductive Reaches (inflate : Inflate) (s : ByteStream) : ZipIterator → ZipIterator → Prop
  | refl (it : ZipIterator) : Reaches inflate s it it
  | step (it it1 it2 : ZipIterator) (e : Except String ZipEntry) :
      Reaches inflate s it it1 →
      ZipIterator.next inflate s it1 = StepResult.item e it2 →
      Reaches inflate s it it2

/-- Width of one central-directory record together with its variable-length
parts (filename, extra field, comment). -/
def cdRecordSpan (gh : JZGlobalFileHeader) : Nat :=
  GLOBAL_FILE_HEADER_SIZE + gh.file_name_length + gh.extra_field_length + gh.file_comment_length

/-- Description of one archive entry: the central-directory record contents,
the local-header contents at its offset, the local filename bytes, and the
decompressed output bytes. -/
structure EntrySpec where
  gh : JZGlobalFileHeader
  lh : JZLocalFileHeader
  lfname : List Nat
  output : List Nat
  deriving DecidableEq

/-- The payload at offset d decodes to out: Store entries carry the bytes
verbatim, Deflate entries carry bytes the external decoder accepts. -/
abbrev DecodeOK (inflate : Inflate) (s : ByteStream) (d : Nat)
    (lh : JZLocalFileHeader) (out : List Nat) : Prop :=
  (lh.compression_method = 0 ∧ d + lh.uncompressed_size ≤ s.size ∧
    bytesFrom s d lh.uncompressed_size = out)
  ∨ (lh.compression_method = 8 ∧ d + lh.compressed_size ≤ s.size ∧
    inflate (bytesFrom s d lh.compressed_size) = Except.ok out)

/-- A well-formed local record at offset o: in bounds, correctly signed, with
a UTF-8 filename, the Store size invariant, and a decodable payload. -/
abbrev LocalOK (inflate : Inflate) (s : ByteStream) (o : Nat)
    (lh : JZLocalFileHeader) (lfname out : List Nat) : Prop :=
  o + LOCAL_FILE_HEADER_SIZE ≤ s.size ∧
  decodeLocalFileHeader s o = lh ∧
  lh.signature = JZ_LOCAL_FILE_HEADER_SIGNATURE ∧
  o + LOCAL_FILE_HEADER_SIZE + lh.file_name_length ≤ s.size ∧
  bytesFrom s (o + LOCAL_FILE_HEADER_SIZE) lh.file_name_length = lfname ∧
  validUtf8 lfname = true ∧
  ¬(lh.compression_method = 0 ∧ lh.compressed_size ≠ lh.uncompressed_size) ∧
  DecodeOK inflate s (o + LOCAL_FILE_HEADER_SIZE + lh.file_name_length + lh.extra_field_length)
    lh out

/-- A well-formed archive entry whose central-directory record sits at
offset p: the record is in bounds and correctly signed, its filename fits the
scratch buffer, the redundant fields agree with the local copy, and the local
record at the referenced offset is well formed. -/
abbrev EntryOKAt (inflate : Inflate) (s : ByteStream) (p : Nat) (e : EntrySpec) : Prop :=
  p + GLOBAL_FILE_HEADER_SIZE ≤ s.size ∧
  decodeGlobalFileHeader s p = e.gh ∧
  e.gh.signature = JZ_GLOBAL_FILE_HEADER_SIGNATURE ∧
  e.gh.file_name_length + 1 < JZ_BUFFER_SIZE ∧
  p + cdRecordSpan e.gh ≤ s.size ∧
  e.lh.compression_method = e.gh.compression_method ∧
  e.lh.compressed_size = e.gh.compressed_size ∧
  e.lh.uncompressed_size = e.gh.uncompressed_size ∧
  e.lh.crc32 = e.gh.crc32 ∧
  LocalOK inflate s e.gh.relative_offset_of_local_header e.lh e.lfname e.output

/-- The central-directory records for the given entries are laid out
consecutively starting at offset p. -/
def ChainOK (inflate : Inflate) (s : ByteStream) : Nat → List EntrySpec → Prop
  | _, [] => True
  | p, e :: rest => EntryOKAt inflate s p e ∧ ChainOK inflate s (p + cdRecordSpan e.gh) rest

instance instDecChainOK (inflate : Inflate) (s : ByteStream) :
    ∀ (p : Nat) (l : List EntrySpec), Decidable (ChainOK inflate s p l)
  | _, [] => Decidable.isTrue trivial
  | p, e :: rest =>
    haveI : Decidable (ChainOK inflate s (p + cdRecordSpan e.gh) rest) :=
      instDecChainOK inflate s (p + cdRecordSpan e.gh) rest
    inferInstanceAs (Decidable (EntryOKAt inflate s p e ∧ ChainOK inflate s (p + cdRecordSpan e.gh) rest))

/-- The single-disk invariant the end record must satisfy (section 3 of the
spec). -/
abbrev SingleDiskOK (er : JZEndRecord) : Prop :=
  er.disk_number = 0 ∧ er.central_directory_disk_number = 0 ∧
  er.num_entries = er.num_entries_this_disk

/-- A well-formed single-disk archive: its end record sits at offset q,
correctly signed and single-disk, its comment runs exactly to end of file,
and the central directory describes the given entries in order.  This is a
format-level property of the bytes; it does not constrain the comment
contents. -/
abbrev ArchiveOK (inflate : Inflate) (s : ByteStream) (entries : List EntrySpec) (q : Nat) : Prop :=
  le32 s q = JZ_END_RECORD_SIGNATURE ∧
  q + END_RECORD_SIZE + (decodeEndRecord s q).zip_comment_length = s.size ∧
  SingleDiskOK (decodeEndRecord s q) ∧
  (decodeEndRecord s q).num_entries = entries.length ∧
  ChainOK inflate s (decodeEndRecord s q).central_directory_offset entries

/-- The conditions under which the backward scan of jz_read_end_record lands
exactly on the record at offset q: the file is larger than the fixed record,
q lies inside the tail window, the signature is present at q, and no window
position after q also carries the signature. -/
def LocatorFinds (s : ByteStream) (q : Nat) : Prop :=
  END_RECORD_SIZE < s.size ∧
  scanBase s ≤ q ∧
  q + END_RECORD_SIZE ≤ s.size ∧
  le32 s q = JZ_END_RECORD_SIGNATURE ∧
  ∀ j : Nat, q < j → j + END_RECORD_SIZE ≤ s.size → le32 s j ≠ JZ_END_RECORD_SIGNATURE

/-- The ZipEntry the iterator yields for a well-formed entry: the header
summary comes from the central-directory record, the buffer is the decoded
payload, and the filename is the one read from the local header. -/
def expectedEntry (e : EntrySpec) : ZipEntry where
  header := mkGlobalJZFileHeader e.gh
  buffer := e.output
  filename := e.lfname

/-- An inflate stub for concrete runs that only involve Store entries. -/
def inflateNone : Inflate := fun _ => Except.error msgIoError

/-- An inflate used by witnesses exercising the Deflate branch: it answers
with the input followed by itself. -/
def inflateEcho : Inflate := fun l => Except.ok (l ++ l)

/-- Bytes of a valid one-entry archive: a Store entry named "a" with payload
0x68 0x69, its central-directory record, and a comment-free end record.
Layout: local header at 0, filename at 30, payload at 31, central directory
at 33, end record at 80, total size 102. -/
def archiveABytes : List Nat :=
  [0x50, 0x4B, 0x03, 0x04, 0x14, 0, 0, 0, 0, 0, 0, 0, 0, 0,
   0, 0, 0, 0, 2, 0, 0, 0, 2, 0, 0, 0, 1, 0, 0, 0,
   0x61,
   0x68, 0x69,
   0x50, 0x4B, 0x01, 0x02, 0x14, 0, 0x14, 0, 0, 0, 0, 0, 0, 0, 0, 0,
   0, 0, 0, 0, 2, 0, 0, 0, 2, 0, 0, 0, 1, 0, 0, 0, 0, 0,
   0, 0, 0, 0, 0, 0, 0, 0, 0, 0, 0, 0,
   0x61,
   0x50, 0x4B, 0x05, 0x06, 0, 0, 0, 0, 1, 0, 1, 0,
   47, 0, 0, 0, 33, 0, 0, 0, 0, 0]

def streamA : ByteStream where
  size := 102
  data := fun p => archiveABytes.getD p 0

/-- The central-directory record contents of the single entry of streamA. -/
def ghA : JZGlobalFileHeader where
  signature := JZ_GLOBAL_FILE_HEADER_SIGNATURE
  version_made_by := 20
  version_needed_to_extract := 20
  general_purpose_bit_flag := 0
  compression_method := 0
  last_mod_file_time := 0
  last_mod_file_date := 0
  crc32 := 0
  compressed_size := 2
  uncompressed_size := 2
  file_name_length := 1
  extra_field_length := 0
  file_comment_length := 0
  disk_number_start := 0
  internal_file_attributes := 0
  external_file_attributes := 0
  relative_offset_of_local_header := 0

/-- The local-header contents of the single entry of streamA. -/
def lhA : JZLocalFileHeader where
  signature := JZ_LOCAL_FILE_HEADER_SIGNATURE
  version_needed_to_extract := 20
  general_purpose_bit_flag := 0
  compression_method := 0
  last_mod_file_time := 0
  last_mod_file_date := 0
  crc32 := 0
  compressed_size := 2
  uncompressed_size := 2
  file_name_length := 1
  extra_field_length := 0

def specA : EntrySpec where
  gh := ghA
  lh := lhA
  lfname := [0x61]
  output := [0x68, 0x69]

/-- The end record of streamA. -/
def erA : JZEndRecord where
  signature := JZ_END_RECORD_SIGNATURE
  disk_number := 0
  central_directory_disk_number := 0
  num_entries_this_disk := 1
  num_entries := 1
  central_directory_size := 47
  central_directory_offset := 33
  zip_comment_length := 0

/-- streamA with the end record announcing a 22-byte comment, and a comment
whose bytes spell a spurious end record declaring disk_number = 1.  Still a
well-formed archive: a ZIP comment is arbitrary bytes. -/
def archiveCommentBytes : List Nat :=
  archiveABytes.set 100 22 ++
  [0x50, 0x4B, 0x05, 0x06, 1, 0, 0, 0, 1, 0, 1, 0,
   0, 0, 0, 0, 0, 0, 0, 0, 0, 0]

def streamComment : ByteStream where
  size := 124
  data := fun p => archiveCommentBytes.getD p 0

/-- streamA with the first byte of the local-header signature flipped. -/
def streamFlip : ByteStream where
  size := 102
  data := fun p => (archiveABytes.set 0 0x51).getD p 0

/-- streamA with the central-directory filename byte replaced by 0xFF, which
is not valid UTF-8; the local filename at offset 30 stays "a". -/
def streamBadCdName : ByteStream where
  size := 102
  data := fun p => (archiveABytes.set 79 0xFF).getD p 0

/-- A single local file header declaring method Store with compressed size 1
and uncompressed size 2 (and a valid signature): the Store size invariant is
violated. -/
def streamStoreMismatch : ByteStream where
  size := 30
  data := fun p =>
    ([0x50, 0x4B, 0x03, 0x04, 0x14, 0, 0, 0, 0, 0, 0, 0, 0, 0,
      0, 0, 0, 0, 1, 0, 0, 0, 2, 0, 0, 0, 0, 0, 0, 0] : List Nat).getD p 0

/-- A local file header followed by the one-byte filename 0xFF, which is not
valid UTF-8. -/
def streamBadLocalName : ByteStream where
  size := 31
  data := fun p =>
    ([0x50, 0x4B, 0x03, 0x04, 0x14, 0, 0, 0, 0, 0, 0, 0, 0, 0,
      0, 0, 0, 0, 0, 0, 0, 0, 0, 0, 0, 0, 1, 0, 0, 0,
      0xFF] : List Nat).getD p 0

/-- A central-directory record declaring filename length 0xFFFF, which
overflows the scratch buffer once the null terminator is added. -/
def streamLongName : ByteStream where
  size := 46
  data := fun p =>
    ([0x50, 0x4B, 0x01, 0x02, 0x14, 0, 0x14, 0, 0, 0, 0, 0, 0, 0, 0, 0,
      0, 0, 0, 0, 0, 0, 0, 0, 0, 0, 0, 0, 0xFF, 0xFF, 0, 0,
      0, 0, 0, 0, 0, 0, 0, 0, 0, 0, 0, 0, 0, 0] : List Nat).getD p 0

/-- Four payload bytes; enough stream for the payload-decoder witnesses. -/
def streamPayload : ByteStream where
  size := 4
  data := fun p => ([9, 7, 5, 3] : List Nat).getD p 0

/-- A stream whose bytes carry the end-record signature at offsets 3 and 11
and nothing else: two candidate windows for the backward scan. -/
def streamTwoSigs : ByteStream where
  size := 40
  data := fun p =>
    (([0, 0, 0, 0x50, 0x4B, 0x05, 0x06, 0, 0, 0, 0,
       0x50, 0x4B, 0x05, 0x06] : List Nat) ++ List.replicate 25 0).getD p 0

/-- One padding byte followed by an end record declaring disk_number = 1:
a multi-disk end record. -/
def streamMultiDisk : ByteStream where
  size := 23
  data := fun p =>
    ([0, 0x50, 0x4B, 0x05, 0x06, 1, 0, 0, 0, 0, 0, 0, 0,
      0, 0, 0, 0, 0, 0, 0, 0, 0, 0] : List Nat).getD p 0

/-- One padding byte followed by an all-zero-fields single-disk end record. -/
def streamTinyOk : ByteStream where
  size := 23
  data := fun p =>
    ([0, 0x50, 0x4B, 0x05, 0x06, 0, 0, 0, 0, 0, 0, 0, 0,
      0, 0, 0, 0, 0, 0, 0, 0, 0, 0] : List Nat).getD p 0

/-- The 22 end-record bytes of the C3 counterexample: valid signature,
single-disk fields, comment length 0xFFFF. -/
def maxCommentRecordBytes : List Nat :=
  [0x50, 0x4B, 0x05, 0x06, 0, 0, 0, 0, 0, 0, 0, 0,
   0, 0, 0, 0, 0, 0, 0, 0, 0xFF, 0xFF]

/-- An end record at offset 0 followed by a 65535-byte all-zero comment:
65557 bytes in total.  The record lies within the last 65535+22 bytes (it is
the whole head of the file), but outside the 65536-byte tail window. -/
def streamMaxComment : ByteStream where
  size := 65557
  data := fun p => if p < 22 then maxCommentRecordBytes.getD p 0 else 0

theorem findSigFrom_eq_some (s : ByteStream) (base : Nat) :
    ∀ n d : Nat, d ≤ n → le32 s (base + d) = JZ_END_RECORD_SIGNATURE →
      (∀ k, d < k → k ≤ n → le32 s (base + k) ≠ JZ_END_RECORD_SIGNATURE) →
      findSigFrom s base n = some d
  | 0, d, hd, hsig, _ => by
    have hd0 : d = 0 := Nat.le_zero.mp hd
    subst hd0
    rw [findSigFrom, if_pos (by simpa using hsig)]
  | n + 1, d, hd, hsig, habove => by
    by_cases hdn : d = n + 1
    · subst hdn
      rw [findSigFrom, if_pos hsig]
    · have hne : le32 s (base + (n + 1)) ≠ JZ_END_RECORD_SIGNATURE :=
        habove (n + 1) (by omega) (Nat.le_refl _)
      rw [findSigFrom, if_neg hne]
      exact findSigFrom_eq_some s base n d (by omega) hsig
        (fun k hk1 hk2 => habove k hk1 (by omega))

theorem findSigFrom_eq_none (s : ByteStream) (base : Nat) :
    ∀ n : Nat, (∀ k, k ≤ n → le32 s (base + k) ≠ JZ_END_RECORD_SIGNATURE) →
      findSigFrom s base n = none
  | 0, h => by
    rw [findSigFrom, if_neg (by simpa using h 0 (Nat.le_refl 0))]
  | n + 1, h => by
    rw [findSigFrom, if_neg (h (n + 1) (Nat.le_refl _))]
    exact findSigFrom_eq_none s base n (fun k hk => h k (by omega))

theorem findSigFrom_some_spec (s : ByteStream) (base : Nat) :
    ∀ n j : Nat, findSigFrom s base n = some j →
      le32 s (base + j) = JZ_END_RECORD_SIGNATURE ∧ j ≤ n ∧
      ∀ k, j < k → k ≤ n → le32 s (base + k) ≠ JZ_END_RECORD_SIGNATURE
  | 0, j, h => by
    rw [findSigFrom] at h
    by_cases hs : le32 s base = JZ_END_RECORD_SIGNATURE
    · rw [if_pos hs] at h
      have hj : j = 0 := by simpa using h.symm
      subst hj
      exact ⟨by simpa using hs, Nat.le_refl _, fun k hk1 hk2 => absurd (Nat.lt_of_lt_of_le hk1 hk2) (Nat.lt_irrefl _)⟩
    · rw [if_neg hs] at h
      exact absurd h (by simp)
  | n + 1, j, h => by
    rw [findSigFrom] at h
    by_cases hs : le32 s (base + (n + 1)) = JZ_END_RECORD_SIGNATURE
    · rw [if_pos hs] at h
      have hj : j = n + 1 := by simpa using h.symm
      subst hj
      exact ⟨hs, Nat.le_refl _, fun k hk1 hk2 => absurd (Nat.lt_of_lt_of_le hk1 hk2) (Nat.lt_irrefl _)⟩
    · rw [if_neg hs] at h
      obtain ⟨h1, h2, h3⟩ := findSigFrom_some_spec s base n j h
      refine ⟨h1, by omega, fun k hk1 hk2 => ?_⟩
      rcases Nat.lt_or_ge k (n + 1) with hk | hk
      · exact h3 k hk1 (by omega)
      · have hkn : k = n + 1 := by omega
        subst hkn
        exact hs

theorem readBytesLen_le (s : ByteStream) : readBytesLen s ≤ s.size := by
  by_cases h : s.size < JZ_BUFFER_SIZE
  · rw [readBytesLen, if_pos h]
  · rw [readBytesLen, if_neg h]
    omega

theorem scanBase_add (s : ByteStream) : scanBase s + readBytesLen s = s.size := by
  have := readBytesLen_le s
  unfold scanBase
  omega

theorem end_record_size_le_readBytesLen (s : ByteStream) (h : END_RECORD_SIZE < s.size) :
    END_RECORD_SIZE ≤ readBytesLen s := by
  by_cases hb : s.size < JZ_BUFFER_SIZE
  · rw [readBytesLen, if_pos hb]
    omega
  · rw [readBytesLen, if_neg hb]
    rw [END_RECORD_SIZE, JZ_BUFFER_SIZE]
    omega

/-- Under the LocatorFinds conditions, the backward scan lands exactly on the
record at q, and jz_read_end_record returns its decode, subject only to the
single-disk check. -/
theorem jz_read_end_record_found (s : ByteStream) (q : Nat) (hL : LocatorFinds s q) :
    jz_read_end_record s =
      if (decodeEndRecord s q).disk_number ≠ 0 ∨ (decodeEndRecord s q).central_directory_disk_number ≠ 0
          ∨ (decodeEndRecord s q).num_entries ≠ (decodeEndRecord s q).num_entries_this_disk then
        Except.error msgMultiDisk
      else Except.ok (decodeEndRecord s q) := by
  obtain ⟨hsmall, hbase, htop, hsig, hnospur⟩ := hL
  have hrb := scanBase_add s
  have hrb22 := end_record_size_le_readBytesLen s hsmall
  obtain ⟨d, rfl⟩ : ∃ d, q = scanBase s + d := ⟨q - scanBase s, by omega⟩
  have hfind : findSigFrom s (scanBase s) (readBytesLen s - END_RECORD_SIZE) = some d := by
    apply findSigFrom_eq_some s (scanBase s) _ _ (by omega) hsig
    intro k hk1 hk2
    exact hnospur (scanBase s + k) (by omega) (by omega)
  rw [jz_read_end_record, if_neg (by omega), hfind]

theorem jz_read_local_file_header_raw_ok (inflate : Inflate) (s : ByteStream) (o : Nat)
    (lh : JZLocalFileHeader) (lfname out : List Nat)
    (h : LocalOK inflate s o lh lfname out) :
    jz_read_local_file_header_raw s o =
      (Except.ok (lh, lfname),
        o + LOCAL_FILE_HEADER_SIZE + lh.file_name_length + lh.extra_field_length) := by
  obtain ⟨h30, hdec, hsig, hfn, hfb, hutf, hstore, _⟩ := h
  rw [jz_read_local_file_header_raw, hdec, if_pos h30, if_neg (not_not_intro hsig),
    if_pos hfn, hfb, if_pos hutf, if_neg hstore]

theorem jz_read_local_file_header_ok (inflate : Inflate) (s : ByteStream) (o : Nat)
    (lh : JZLocalFileHeader) (lfname out : List Nat)
    (h : LocalOK inflate s o lh lfname out) :
    jz_read_local_file_header s o =
      (Except.ok (mkLocalJZFileHeader lh, lfname),
        o + LOCAL_FILE_HEADER_SIZE + lh.file_name_length + lh.extra_field_length) := by
  rw [jz_read_local_file_header,
    jz_read_local_file_header_raw_ok inflate s o lh lfname out h]

theorem jz_read_data_ok (inflate : Inflate) (s : ByteStream) (d : Nat)
    (lh : JZLocalFileHeader) (out : List Nat) (h : DecodeOK inflate s d lh out) :
    ∃ p2, jz_read_data inflate s d (mkLocalJZFileHeader lh) = (Except.ok out, p2) := by
  rcases h with ⟨hm, hle, hbytes⟩ | ⟨hm, hle, hinf⟩
  · refine ⟨d + lh.uncompressed_size, ?_⟩
    rw [jz_read_data]
    simp only [mkLocalJZFileHeader]
    rw [if_pos hm, if_pos hle, hbytes]
  · refine ⟨d + lh.compressed_size, ?_⟩
    rw [jz_read_data]
    simp only [mkLocalJZFileHeader]
    rw [if_neg (by omega), if_pos hm, if_pos hle, hinf]

theorem process_file_ok (inflate : Inflate) (s : ByteStream) (it : ZipIterator)
    (lh : JZLocalFileHeader) (lfname out : List Nat)
    (h : LocalOK inflate s it.pos lh lfname out) :
    ∃ p2, process_file inflate s it =
      Except.ok (out, { it with pos := p2, filename := some lfname }) := by
  obtain ⟨p2, hdata⟩ := jz_read_data_ok inflate s
    (it.pos + LOCAL_FILE_HEADER_SIZE + lh.file_name_length + lh.extra_field_length)
    lh out (h.2.2.2.2.2.2.2)
  refine ⟨p2, ?_⟩
  rw [process_file, jz_read_local_file_header_ok inflate s it.pos lh lfname out h]
  simp only [hdata]

theorem record_callback_ok (inflate : Inflate) (s : ByteStream) (it : ZipIterator)
    (gh : JZGlobalFileHeader) (lh : JZLocalFileHeader) (lfname out : List Nat)
    (h : LocalOK inflate s gh.relative_offset_of_local_header lh lfname out) :
    record_callback inflate s it (mkGlobalJZFileHeader gh) =
      Except.ok (out, { it with filename := some lfname }) := by
  obtain ⟨p2, hpf⟩ := process_file_ok inflate s
    { it with pos := (mkGlobalJZFileHeader gh).offset } lh lfname out h
  rw [record_callback, hpf]

theorem nextEntryStep_ok (inflate : Inflate) (s : ByteStream) (it : ZipIterator) (e : EntrySpec)
    (hE : EntryOKAt inflate s it.pos e) :
    nextEntryStep inflate s it =
      StepResult.item (Except.ok (expectedEntry e))
        { it with pos := it.pos + cdRecordSpan e.gh, filename := some e.lfname,
                  next_entry := it.next_entry + 1 } := by
  obtain ⟨h46, hdec, hsig, hshort, hspan, _, _, _, _, hlocal⟩ := hE
  have hadv : cdAdvancePos s it.pos = it.pos + cdRecordSpan e.gh := by
    rw [cdAdvancePos, hdec]
    have hmin : min e.gh.file_name_length (s.size - (it.pos + GLOBAL_FILE_HEADER_SIZE))
        = e.gh.file_name_length := by
      apply Nat.min_eq_left
      rw [cdRecordSpan] at hspan
      omega
    rw [hmin, cdRecordSpan]
    omega
  rw [nextEntryStep, hdec, if_pos h46, if_neg (not_not_intro hsig), if_neg (by omega), hadv,
    record_callback_ok inflate s _ e.gh e.lh e.lfname e.output hlocal]
  rfl

theorem next_done (inflate : Inflate) (s : ByteStream) (it : ZipIterator)
    (h : it.next_entry = it.end_rec.num_entries) :
    ZipIterator.next inflate s it = StepResult.done := by
  rw [ZipIterator.next, if_neg (by omega), if_pos h]

theorem next_ok (inflate : Inflate) (s : ByteStream) (it : ZipIterator) (e : EntrySpec)
    (hE : EntryOKAt inflate s it.pos e)
    (hlt : it.next_entry < it.end_rec.num_entries) :
    ZipIterator.next inflate s it =
      StepResult.item (Except.ok (expectedEntry e))
        { it with pos := it.pos + cdRecordSpan e.gh, filename := some e.lfname,
                  next_entry := it.next_entry + 1 } := by
  rw [ZipIterator.next, if_neg (by omega), if_neg (by omega)]
  exact nextEntryStep_ok inflate s it e hE

theorem runWalker_chain (inflate : Inflate) (s : ByteStream) :
    ∀ (entries : List EntrySpec) (it : ZipIterator),
      ChainOK inflate s it.pos entries →
      it.next_entry + entries.length = it.end_rec.num_entries →
      runWalker inflate s it (entries.length + 1) =
        (entries.map (fun e => Except.ok (expectedEntry e)), RunEnd.finished)
  | [], it, _, hcount => by
    have hdone := next_done inflate s it (by simpa using hcount)
    simp [runWalker, hdone]
  | e :: rest, it, hchain, hcount => by
    obtain ⟨hE, hrest⟩ := hchain
    simp only [List.length_cons] at hcount
    have hstep := next_ok inflate s it e hE (by omega)
    have hIH := runWalker_chain inflate s rest
      { it with pos := it.pos + cdRecordSpan e.gh, filename := some e.lfname,
                next_entry := it.next_entry + 1 }
      hrest (by simp only []; omega)
    simp only [List.length_cons]
    rw [runWalker, hstep]
    simp only [hIH, List.map]

theorem process_file_error_state (inflate : Inflate) (s : ByteStream) (it : ZipIterator)
    (e : String) (it1 : ZipIterator)
    (h : process_file inflate s it = Except.error (e, it1)) :
    it1.next_entry = it.next_entry ∧ it1.end_rec = it.end_rec ∧ it1.filename = it.filename := by
  rcases hlf : jz_read_local_file_header s it.pos with ⟨res, pos1⟩
  rcases res with err | vv
  · rw [process_file, hlf] at h
    simp only [Except.error.injEq, Prod.mk.injEq] at h
    obtain ⟨-, hit⟩ := h
    subst hit
    exact ⟨rfl, rfl, rfl⟩
  · rcases vv with ⟨header, fname⟩
    rcases hd : jz_read_data inflate s pos1 header with ⟨dres, pos2⟩
    rcases dres with derr | dok
    · rw [process_file, hlf] at h
      simp only [hd, Except.error.injEq, Prod.mk.injEq] at h
      obtain ⟨-, hit⟩ := h
      subst hit
      exact ⟨rfl, rfl, rfl⟩
    · rw [process_file, hlf] at h
      simp only [hd] at h
      exact Except.noConfusion h

theorem process_file_ok_state (inflate : Inflate) (s : ByteStream) (it : ZipIterator)
    (data : List Nat) (it1 : ZipIterator)
    (h : process_file inflate s it = Except.ok (data, it1)) :
    it1.next_entry = it.next_entry ∧ it1.end_rec = it.end_rec ∧ ∃ f, it1.filename = some f := by
  rcases hlf : jz_read_local_file_header s it.pos with ⟨res, pos1⟩
  rcases res with err | vv
  · rw [process_file, hlf] at h
    simp only at h
    exact Except.noConfusion h
  · rcases vv with ⟨header, fname⟩
    rcases hd : jz_read_data inflate s pos1 header with ⟨dres, pos2⟩
    rcases dres with derr | dok
    · rw [process_file, hlf] at h
      simp only [hd] at h
      exact Except.noConfusion h
    · rw [process_file, hlf] at h
      simp only [hd, Except.ok.injEq, Prod.mk.injEq] at h
      obtain ⟨-, hit⟩ := h
      subst hit
      exact ⟨rfl, rfl, fname, rfl⟩

theorem record_callback_error_state (inflate : Inflate) (s : ByteStream) (it : ZipIterator)
    (header : JZFileHeader) (e : String) (it1 : ZipIterator)
    (h : record_callback inflate s it header = Except.error (e, it1)) :
    it1.next_entry = it.next_entry ∧ it1.end_rec = it.end_rec ∧ it1.filename = it.filename := by
  rcases hpf : process_file inflate s { it with pos := header.offset } with perr | pok
  · rw [record_callback, hpf] at h
    rcases perr with ⟨e0, it0⟩
    simp only [Except.error.injEq, Prod.mk.injEq] at h
    obtain ⟨-, hit⟩ := h
    subst hit
    obtain ⟨h1, h2, h3⟩ :=
      process_file_error_state inflate s { it with pos := header.offset } e0 it0 hpf
    exact ⟨h1, h2, h3⟩
  · rcases pok with ⟨data, it0⟩
    rw [record_callback, hpf] at h
    simp only at h
    exact Except.noConfusion h

theorem record_callback_ok_state (inflate : Inflate) (s : ByteStream) (it : ZipIterator)
    (header : JZFileHeader) (data : List Nat) (it1 : ZipIterator)
    (h : record_callback inflate s it header = Except.ok (data, it1)) :
    it1.next_entry = it.next_entry ∧ it1.end_rec = it.end_rec ∧ ∃ f, it1.filename = some f := by
  rcases hpf : process_file inflate s { it with pos := header.offset } with perr | pok
  · rw [record_callback, hpf] at h
    rcases perr with ⟨e0, it0⟩
    simp only at h
    exact Except.noConfusion h
  · rcases pok with ⟨data0, it0⟩
    rw [record_callback, hpf] at h
    simp only [Except.ok.injEq, Prod.mk.injEq] at h
    obtain ⟨-, hit⟩ := h
    subst hit
    obtain ⟨hne, her, f, hf⟩ :=
      process_file_ok_state inflate s { it with pos := header.offset } data0 it0 hpf
    exact ⟨hne, her, f, hf⟩

theorem nextEntryStep_ne_done (inflate : Inflate) (s : ByteStream) (it : ZipIterator) :
    nextEntryStep inflate s it ≠ StepResult.done := by
  rw [nextEntryStep]
  repeat' split
  all_goals simp

theorem nextEntryStep_item_state (inflate : Inflate) (s : ByteStream) (it : ZipIterator)
    (e : Except String ZipEntry) (it1 : ZipIterator)
    (h : nextEntryStep inflate s it = StepResult.item e it1) :
    it1.end_rec = it.end_rec ∧
      (it1.next_entry = it.next_entry ∨ it1.next_entry = it.next_entry + 1) ∧
      (∀ msg, e = Except.error msg → it1.next_entry = it.next_entry) := by
  rw [nextEntryStep] at h
  by_cases hA : it.pos + GLOBAL_FILE_HEADER_SIZE ≤ s.size
  · rw [if_pos hA] at h
    by_cases hB : (decodeGlobalFileHeader s it.pos).signature ≠ JZ_GLOBAL_FILE_HEADER_SIGNATURE
    · rw [if_pos hB] at h
      simp only [StepResult.item.injEq] at h
      obtain ⟨-, hit⟩ := h
      subst hit
      exact ⟨rfl, Or.inl rfl, fun _ _ => rfl⟩
    · rw [if_neg hB] at h
      by_cases hC : (decodeGlobalFileHeader s it.pos).file_name_length + 1 ≥ JZ_BUFFER_SIZE
      · rw [if_pos hC] at h
        simp only [StepResult.item.injEq] at h
        obtain ⟨-, hit⟩ := h
        subst hit
        exact ⟨rfl, Or.inl rfl, fun _ _ => rfl⟩
      · rw [if_neg hC] at h
        rcases hrc : record_callback inflate s { it with pos := cdAdvancePos s it.pos }
            (mkGlobalJZFileHeader (decodeGlobalFileHeader s it.pos)) with rerr | rok
        · rcases rerr with ⟨e0, it0⟩
          simp only [hrc, StepResult.item.injEq] at h
          obtain ⟨he, hit⟩ := h
          subst hit
          obtain ⟨h1, h2, -⟩ := record_callback_error_state inflate s
            { it with pos := cdAdvancePos s it.pos } _ e0 it0 hrc
          exact ⟨h2, Or.inl h1, fun _ _ => h1⟩
        · rcases rok with ⟨data, it0⟩
          rcases hf : it0.filename with - | f
          · simp only [hrc, hf] at h
            exact StepResult.noConfusion h
          · simp only [hrc, hf, StepResult.item.injEq] at h
            obtain ⟨he, hit⟩ := h
            subst hit
            obtain ⟨h1, h2, -⟩ := record_callback_ok_state inflate s
              { it with pos := cdAdvancePos s it.pos } _ data it0 hrc
            refine ⟨h2, Or.inr (by rw [h1]), fun msg hmsg => ?_⟩
            rw [← he] at hmsg
            exact Except.noConfusion hmsg
  · rw [if_neg hA] at h
    simp only [StepResult.item.injEq] at h
    obtain ⟨-, hit⟩ := h
    subst hit
    exact ⟨rfl, Or.inl rfl, fun _ _ => rfl⟩

theorem nextEntryStep_ne_panicked (inflate : Inflate) (s : ByteStream) (it : ZipIterator) :
    nextEntryStep inflate s it ≠ StepResult.panicked := by
  rw [nextEntryStep]
  by_cases hA : it.pos + GLOBAL_FILE_HEADER_SIZE ≤ s.size
  · rw [if_pos hA]
    by_cases hB : (decodeGlobalFileHeader s it.pos).signature ≠ JZ_GLOBAL_FILE_HEADER_SIGNATURE
    · rw [if_pos hB]
      simp
    · rw [if_neg hB]
      by_cases hC : (decodeGlobalFileHeader s it.pos).file_name_length + 1 ≥ JZ_BUFFER_SIZE
      · rw [if_pos hC]
        simp
      · rw [if_neg hC]
        rcases hrc : record_callback inflate s { it with pos := cdAdvancePos s it.pos }
            (mkGlobalJZFileHeader (decodeGlobalFileHeader s it.pos)) with rerr | rok
        · rcases rerr with ⟨e0, it0⟩
          simp only [hrc]
          simp
        · rcases rok with ⟨data, it0⟩
          obtain ⟨-, -, f, hf⟩ := record_callback_ok_state inflate s
            { it with pos := cdAdvancePos s it.pos } _ data it0 hrc
          simp only [hrc, hf]
          simp
  · rw [if_neg hA]
    simp

theorem next_done_iff (inflate : Inflate) (s : ByteStream) (it : ZipIterator) :
    ZipIterator.next inflate s it = StepResult.done ↔
      it.next_entry = it.end_rec.num_entries := by
  constructor
  · intro h
    by_contra hne
    rw [ZipIterator.next] at h
    by_cases h1 : it.next_entry > it.end_rec.num_entries
    · rw [if_pos h1] at h
      exact StepResult.noConfusion h
    · rw [if_neg h1, if_neg hne] at h
      exact nextEntryStep_ne_done inflate s it h
  · exact next_done inflate s it

theorem next_item_state (inflate : Inflate) (s : ByteStream) (it : ZipIterator)
    (e : Except String ZipEntry) (it1 : ZipIterator)
    (h : ZipIterator.next inflate s it = StepResult.item e it1) :
    it.next_entry < it.end_rec.num_entries ∧ it1.end_rec = it.end_rec ∧
      (it1.next_entry = it.next_entry ∨ it1.next_entry = it.next_entry + 1) ∧
      (∀ msg, e = Except.error msg → it1.next_entry = it.next_entry) := by
  rw [ZipIterator.next] at h
  by_cases h1 : it.next_entry > it.end_rec.num_entries
  · rw [if_pos h1] at h
    exact StepResult.noConfusion h
  · rw [if_neg h1] at h
    by_cases h2 : it.next_entry = it.end_rec.num_entries
    · rw [if_pos h2] at h
      exact StepResult.noConfusion h
    · rw [if_neg h2] at h
      obtain ⟨ha, hb, hc⟩ := nextEntryStep_item_state inflate s it e it1 h
      exact ⟨by omega, ha, hb, hc⟩

theorem next_ne_panicked (inflate : Inflate) (s : ByteStream) (it : ZipIterator)
    (hinv : it.next_entry ≤ it.end_rec.num_entries) :
    ZipIterator.next inflate s it ≠ StepResult.panicked := by
  rw [ZipIterator.next, if_neg (by omega)]
  by_cases h2 : it.next_entry = it.end_rec.num_entries
  · rw [if_pos h2]
    simp
  · rw [if_neg h2]
    exact nextEntryStep_ne_panicked inflate s it

theorem reaches_invariant (inflate : Inflate) (s : ByteStream) (it0 it : ZipIterator)
    (h0 : it0.next_entry ≤ it0.end_rec.num_entries)
    (hr : Reaches inflate s it0 it) : it.next_entry ≤ it.end_rec.num_entries := by
  induction hr with
  | refl => exact h0
  | step it1 it2 e hr hnext ih =>
    obtain ⟨hlt, her, hne, -⟩ := next_item_state inflate s it1 e it2 hnext
    rw [her]
    rcases hne with hh | hh <;> omega

/-- Claim C1 (as stated, refuted): streamComment is a well-formed single-disk
one-entry archive — its end record at offset 80 announces the 22-byte comment
that closes the file, and the central directory describes exactly the entry
specA — yet the iterator cannot be constructed at all: the backward scan finds
the spurious signature inside the trailing comment first, decodes a bogus
record there, and fails with the multi-disk error.  So a well-formed N-entry
archive need not yield its N entries. -/
theorem claim1_counterexample :
    ArchiveOK inflateNone streamComment [specA] 80 ∧
    ZipIterator.new streamComment = Except.error msgMultiDisk :=
  ⟨by decide, by decide⟩

/-- Claim C1 (amended): for a well-formed single-disk archive with N entries
whose end record is the last signature-carrying position of the scan window
(LocatorFinds: in particular the comment places the record inside the last
min(size, 65536) bytes and contains no spurious signature), the iterator is
constructed successfully and yields exactly the N entries in
central-directory order, then finishes without a further item. -/
theorem claim1_amended (inflate : Inflate) (s : ByteStream) (entries : List EntrySpec)
    (q : Nat) (hA : ArchiveOK inflate s entries q) (hL : LocatorFinds s q) :
    ∃ it0, ZipIterator.new s = Except.ok it0 ∧
      runWalker inflate s it0 (entries.length + 1) =
        (entries.map (fun e => Except.ok (expectedEntry e)), RunEnd.finished) := by
  obtain ⟨hsig, hpos, hsd, hcount, hchain⟩ := hA
  obtain ⟨hd0, hd1, hd2⟩ := hsd
  have hloc := jz_read_end_record_found s q hL
  rw [if_neg (by simp [hd0, hd1, hd2])] at hloc
  refine ⟨{ pos := (decodeEndRecord s q).central_directory_offset, filename := none,
            end_rec := decodeEndRecord s q, next_entry := 0 }, ?_, ?_⟩
  · rw [ZipIterator.new, hloc]
  · exact runWalker_chain inflate s entries _ hchain (by simp [hcount])

/-- Witness for claim1_amended: the comment-free one-entry archive streamA is
accepted and yields its single entry, then finishes. -/
theorem claim1_amended_witness :
    ∃ it0, ZipIterator.new streamA = Except.ok it0 ∧
      runWalker inflateNone streamA it0 2 =
        ([Except.ok (expectedEntry specA)], RunEnd.finished) := by
  apply claim1_amended inflateNone streamA [specA] 80 (by decide)
  refine ⟨by decide, by decide, by decide, by decide, ?_⟩
  intro j h1 h2
  have hs : streamA.size = 102 := rfl
  rw [hs] at h2
  simp only [END_RECORD_SIZE] at h2
  exact absurd h1 (by omega)

/-- Claim C2 (as stated, refuted): in streamFlip (streamA with the first byte
of the local-header signature flipped) the first call yields the
invalid-local-signature error — but the error is not the final item: the very
next call yields another item (a further error), not sequence end.  The
iterator records no failure state: next_entry is unchanged, and the walk
keeps going. -/
theorem claim2_counterexample :
    ZipIterator.new streamFlip = Except.ok ⟨33, none, erA, 0⟩ ∧
    ZipIterator.next inflateNone streamFlip ⟨33, none, erA, 0⟩ =
      StepResult.item (Except.error msgInvalidLocalSignature) ⟨30, none, erA, 0⟩ ∧
    ZipIterator.next inflateNone streamFlip ⟨30, none, erA, 0⟩ =
      StepResult.item (Except.error msgInvalidGlobalSignature) ⟨76, none, erA, 0⟩ :=
  ⟨by decide, by decide, by decide⟩

/-- Claim C2 (amended): a failing step does surface the error as the next
item, but it is never the end of the sequence: next returns None exactly when
the entry cursor equals the entry count, an error item leaves the cursor
unchanged, and therefore the call after an error item never returns None —
the iterator keeps attempting to parse instead of stopping. -/
theorem claim2_amended (inflate : Inflate) (s : ByteStream) (it : ZipIterator) :
    (ZipIterator.next inflate s it = StepResult.done ↔
      it.next_entry = it.end_rec.num_entries) ∧
    (∀ e it1, ZipIterator.next inflate s it = StepResult.item (Except.error e) it1 →
      ZipIterator.next inflate s it1 ≠ StepResult.done) := by
  refine ⟨next_done_iff inflate s it, fun e it1 h hdone => ?_⟩
  obtain ⟨hlt, her, -, hkeep⟩ := next_item_state inflate s it (Except.error e) it1 h
  have hne := hkeep e rfl
  rw [next_done_iff] at hdone
  rw [her] at hdone
  omega

/-- Witness for claim2_amended: at the entry count the iterator returns None. -/
theorem claim2_amended_witness :
    ZipIterator.next inflateNone streamA ⟨80, none, erA, 1⟩ = StepResult.done :=
  (claim2_amended inflateNone streamA ⟨80, none, erA, 1⟩).1.mpr (by decide)

theorem streamMaxComment_byte_high (p : Nat) (hp : 22 ≤ p) : streamMaxComment.byte p = 0 := by
  show (if p < 22 then maxCommentRecordBytes.getD p 0 else 0) % 256 = 0
  rw [if_neg (by omega)]

theorem streamMaxComment_le32_high (p : Nat) (hp : 22 ≤ p) : le32 streamMaxComment p = 0 := by
  rw [le32, streamMaxComment_byte_high p hp, streamMaxComment_byte_high (p + 1) (by omega),
    streamMaxComment_byte_high (p + 2) (by omega), streamMaxComment_byte_high (p + 3) (by omega)]

theorem streamMaxComment_scan_none : findSigFrom streamMaxComment 21 65514 = none := by
  apply findSigFrom_eq_none
  intro k hk
  rcases Nat.eq_zero_or_pos k with hk0 | hkpos
  · subst hk0
    decide
  · rw [streamMaxComment_le32_high (21 + k) (by omega)]
    decide

/-- Claim C3 (as stated, refuted): streamMaxComment carries a valid
single-disk end record at offset 0 whose 65535-byte comment runs exactly to
end of file, so the record lies within the last 65535+22 bytes — yet
65535+22 = 65557 exceeds the 65536-byte window, the record starts before the
window, and the locator reports that no signature was found. -/
theorem claim3_counterexample :
    le32 streamMaxComment 0 = JZ_END_RECORD_SIGNATURE ∧
    SingleDiskOK (decodeEndRecord streamMaxComment 0) ∧
    END_RECORD_SIZE + (decodeEndRecord streamMaxComment 0).zip_comment_length =
      streamMaxComment.size ∧
    jz_read_end_record streamMaxComment = Except.error msgSignatureNotFound := by
  refine ⟨by decide, by decide, by decide, ?_⟩
  rw [jz_read_end_record, if_neg (by decide)]
  have h1 : scanBase streamMaxComment = 21 := by decide
  have h2 : readBytesLen streamMaxComment - END_RECORD_SIZE = 65514 := by decide
  rw [h1, h2, streamMaxComment_scan_none]

/-- Claim C3 (amended): the tail window finds the record only when the record
starts within the last min(size, 65536) bytes — comments up to 65514 bytes,
not the format bound of 65535.  Under LocatorFinds (record inside the window,
no spurious later signature) and the single-disk check, the locator returns
exactly the record at q. -/
theorem claim3_amended (s : ByteStream) (q : Nat) (hL : LocatorFinds s q)
    (hsd : SingleDiskOK (decodeEndRecord s q)) :
    jz_read_end_record s = Except.ok (decodeEndRecord s q) := by
  obtain ⟨hd0, hd1, hd2⟩ := hsd
  have h := jz_read_end_record_found s q hL
  rw [if_neg (by simp [hd0, hd1, hd2])] at h
  exact h

/-- Witness for claim3_amended: a 23-byte stream whose end record occupies
its last 22 bytes is located. -/
theorem claim3_amended_witness :
    jz_read_end_record streamTinyOk = Except.ok (decodeEndRecord streamTinyOk 1) := by
  refine claim3_amended streamTinyOk 1 ?_ (by decide)
  refine ⟨by decide, by decide, by decide, by decide, ?_⟩
  intro j h1 h2
  have hs : streamTinyOk.size = 23 := rfl
  rw [hs] at h2
  simp only [END_RECORD_SIZE] at h2
  exact absurd h1 (by omega)

/-- Claim C4 (as stated, refuted): when the entry cursor exceeds the entry
count, ZipIterator::next does not yield any error item: it panics (the
abrupt, unrecoverable stop that StepResult.panicked models), here shown on a
concrete state with cursor 2 against entry count 1. -/
theorem claim4_counterexample :
    ZipIterator.next inflateNone streamA ⟨33, none, erA, 2⟩ = StepResult.panicked := by
  decide

/-- Claim C4 (amended): the overrun condition triggers a panic, not a yielded
InvariantViolation error; and the second half of the claim does hold — under
the code's own bookkeeping, every state reachable from a freshly constructed
iterator satisfies next_entry <= num_entries, so the panic (either the
overrun check or the filename unwrap) is never observable. -/
theorem claim4_amended (inflate : Inflate) (s : ByteStream) (it0 it : ZipIterator)
    (hnew : ZipIterator.new s = Except.ok it0) (hr : Reaches inflate s it0 it) :
    it.next_entry ≤ it.end_rec.num_entries ∧
    ZipIterator.next inflate s it ≠ StepResult.panicked := by
  have h0 : it0.next_entry = 0 := by
    rw [ZipIterator.new] at hnew
    rcases her : jz_read_end_record s with err | er
    · rw [her] at hnew
      exact Except.noConfusion hnew
    · rw [her] at hnew
      simp only [Except.ok.injEq] at hnew
      rw [← hnew]
  have hinv := reaches_invariant inflate s it0 it (by omega) hr
  exact ⟨hinv, next_ne_panicked inflate s it hinv⟩

/-- Witness for claim4_amended at the freshly constructed iterator of
streamA. -/
theorem claim4_amended_witness :
    (⟨33, none, erA, 0⟩ : ZipIterator).next_entry ≤
      (⟨33, none, erA, 0⟩ : ZipIterator).end_rec.num_entries ∧
    ZipIterator.next inflateNone streamA ⟨33, none, erA, 0⟩ ≠ StepResult.panicked :=
  claim4_amended inflateNone streamA ⟨33, none, erA, 0⟩ ⟨33, none, erA, 0⟩ (by decide)
    (Reaches.refl _)

/-- Claim C5 (as stated, refuted): in streamBadCdName the central-directory
filename byte (offset 79, the one byte following the 46-byte central record
at 33) is 0xFF — not valid UTF-8 — while the local-header filename is "a".
The walker step does not fail with an invalid-UTF-8 error: it succeeds and
yields the entry, because the central-directory filename bytes are read into
the scratch buffer without any UTF-8 interpretation; only the local-header
filename is UTF-8-decoded. -/
theorem claim5_counterexample :
    validUtf8 (bytesFrom streamBadCdName 79 1) = false ∧
    ZipIterator.new streamBadCdName = Except.ok ⟨33, none, erA, 0⟩ ∧
    ZipIterator.next inflateNone streamBadCdName ⟨33, none, erA, 0⟩ =
      StepResult.item (Except.ok ⟨⟨0, 0, 0, 0, 2, 2, 0⟩, [0x68, 0x69], [0x61]⟩)
        ⟨80, some [0x61], erA, 1⟩ :=
  ⟨by decide, by decide, by decide⟩

/-- Claim C5 (amended): the walker reads the central-directory filename bytes
but never interprets them as UTF-8; the step fails with FilenameTooLong when
the declared central length plus the null terminator reaches the scratch
capacity, and it is the local-header filename read during the detour whose
invalid UTF-8 encoding fails the step. -/
theorem claim5_amended (inflate : Inflate) (s : ByteStream) :
    (∀ it : ZipIterator, it.next_entry < it.end_rec.num_entries →
      it.pos + GLOBAL_FILE_HEADER_SIZE ≤ s.size →
      (decodeGlobalFileHeader s it.pos).signature = JZ_GLOBAL_FILE_HEADER_SIGNATURE →
      (decodeGlobalFileHeader s it.pos).file_name_length + 1 ≥ JZ_BUFFER_SIZE →
      ZipIterator.next inflate s it =
        StepResult.item (Except.error msgFileNameTooLong)
          { it with pos := it.pos + GLOBAL_FILE_HEADER_SIZE }) ∧
    (∀ pos : Nat, pos + LOCAL_FILE_HEADER_SIZE ≤ s.size →
      (decodeLocalFileHeader s pos).signature = JZ_LOCAL_FILE_HEADER_SIGNATURE →
      pos + LOCAL_FILE_HEADER_SIZE + (decodeLocalFileHeader s pos).file_name_length ≤ s.size →
      validUtf8 (bytesFrom s (pos + LOCAL_FILE_HEADER_SIZE)
        (decodeLocalFileHeader s pos).file_name_length) = false →
      jz_read_local_file_header_raw s pos =
        (Except.error msgInvalidUtf8,
          pos + LOCAL_FILE_HEADER_SIZE + (decodeLocalFileHeader s pos).file_name_length)) := by
  constructor
  · intro it hlt h46 hsig hlong
    rw [ZipIterator.next, if_neg (by omega), if_neg (by omega), nextEntryStep,
      if_pos h46, if_neg (not_not_intro hsig), if_pos hlong]
  · intro pos h30 hsig hfn hbad
    rw [jz_read_local_file_header_raw, if_pos h30, if_neg (not_not_intro hsig), if_pos hfn,
      if_neg (by simp [hbad])]

/-- Witness for claim5_amended: the overlong central filename declaration of
streamLongName fails with the too-long message, and the 0xFF local filename
of streamBadLocalName fails UTF-8 validation. -/
theorem claim5_amended_witness :
    ZipIterator.next inflateNone streamLongName ⟨0, none, ⟨0, 0, 0, 1, 1, 0, 0, 0⟩, 0⟩ =
      StepResult.item (Except.error msgFileNameTooLong)
        ⟨GLOBAL_FILE_HEADER_SIZE, none, ⟨0, 0, 0, 1, 1, 0, 0, 0⟩, 0⟩ ∧
    jz_read_local_file_header_raw streamBadLocalName 0 = (Except.error msgInvalidUtf8, 31) := by
  constructor
  · exact (claim5_amended inflateNone streamLongName).1 ⟨0, none, ⟨0, 0, 0, 1, 1, 0, 0, 0⟩, 0⟩
      (by decide) (by decide) (by decide) (by decide)
  · exact (claim5_amended inflateNone streamBadLocalName).2 0
      (by decide) (by decide) (by decide) (by decide)

/-- Claim C6 (code bug): on a local header with a valid signature, method
Store, compressed size 1 and uncompressed size 2, the reader does fail — but
with the message "invalid local file header signature", textually identical
to the signature-mismatch error (src/lib.rs line 137 reuses the line 125
message), not a distinct CorruptStoredEntry kind.  Since MZError carries only
the message, the two failure kinds are indistinguishable to the caller. -/
theorem claim6_store_mismatch_message :
    (decodeLocalFileHeader streamStoreMismatch 0).signature = JZ_LOCAL_FILE_HEADER_SIGNATURE ∧
    (decodeLocalFileHeader streamStoreMismatch 0).compression_method = 0 ∧
    (decodeLocalFileHeader streamStoreMismatch 0).compressed_size ≠
      (decodeLocalFileHeader streamStoreMismatch 0).uncompressed_size ∧
    jz_read_local_file_header_raw streamStoreMismatch 0 =
      (Except.error msgInvalidLocalSignature, 30) :=
  ⟨by decide, by decide, by decide, by decide⟩

/-- Claim C7: the payload decoder dispatches on the compression method.
Store (0) reads exactly uncompressed_size bytes and returns them verbatim;
Deflate (8) reads exactly compressed_size bytes and returns the external
inflate function's answer unchanged, error included; any other method m fails
with the unsupported-method message carrying m, reading nothing. -/
theorem claim7_read_data_dispatch (inflate : Inflate) (s : ByteStream) (pos : Nat)
    (header : JZFileHeader) :
    (header.compression_method = 0 → pos + header.uncompressed_size ≤ s.size →
      jz_read_data inflate s pos header =
        (Except.ok (bytesFrom s pos header.uncompressed_size), pos + header.uncompressed_size)) ∧
    (header.compression_method = 8 → pos + header.compressed_size ≤ s.size →
      jz_read_data inflate s pos header =
        (inflate (bytesFrom s pos header.compressed_size), pos + header.compressed_size)) ∧
    (header.compression_method ≠ 0 → header.compression_method ≠ 8 →
      jz_read_data inflate s pos header =
        (Except.error (msgUnsupportedMethod header.compression_method), pos)) := by
  refine ⟨fun h0 hle => ?_, fun h8 hle => ?_, fun h0 h8 => ?_⟩
  · rw [jz_read_data, if_pos h0, if_pos hle]
  · rw [jz_read_data, if_neg (by omega), if_pos h8, if_pos hle]
  · rw [jz_read_data, if_neg h0, if_neg h8]

/-- Witness for claim7_read_data_dispatch: a Store read, a Deflate read
through a concrete inflate, and method 99 carrying 99 in its message. -/
theorem claim7_witness :
    jz_read_data inflateNone streamPayload 0 ⟨0, 0, 0, 0, 3, 3, 0⟩ = (Except.ok [9, 7, 5], 3) ∧
    jz_read_data inflateEcho streamPayload 1 ⟨8, 0, 0, 0, 2, 4, 0⟩ =
      (Except.ok [7, 5, 7, 5], 3) ∧
    jz_read_data inflateNone streamPayload 0 ⟨99, 0, 0, 0, 1, 1, 0⟩ =
      (Except.error (msgUnsupportedMethod 99), 0) := by
  refine ⟨?_, ?_, ?_⟩
  · exact ((claim7_read_data_dispatch inflateNone streamPayload 0
      ⟨0, 0, 0, 0, 3, 3, 0⟩).1 rfl (by decide)).trans (by decide)
  · exact ((claim7_read_data_dispatch inflateEcho streamPayload 1
      ⟨8, 0, 0, 0, 2, 4, 0⟩).2.1 rfl (by decide)).trans (by decide)
  · exact ((claim7_read_data_dispatch inflateNone streamPayload 0
      ⟨99, 0, 0, 0, 1, 1, 0⟩).2.2 (by decide) (by decide)).trans (by decide)

/-- Claim C8: when the scan returns an index, that window carries the
signature and no later candidate window in the buffer does: the backward scan
accepts the match closest to end of file. -/
theorem claim8_backward_scan_latest (s : ByteStream) (base n j : Nat)
    (h : findSigFrom s base n = some j) :
    le32 s (base + j) = JZ_END_RECORD_SIGNATURE ∧ j ≤ n ∧
    ∀ k, j < k → k ≤ n → le32 s (base + k) ≠ JZ_END_RECORD_SIGNATURE :=
  findSigFrom_some_spec s base n j h

/-- Witness for claim8_backward_scan_latest: streamTwoSigs carries the
signature at offsets 3 and 11; the scan over candidates 0..18 returns 11,
the one closer to end of file. -/
theorem claim8_witness :
    le32 streamTwoSigs (0 + 11) = JZ_END_RECORD_SIGNATURE :=
  (claim8_backward_scan_latest streamTwoSigs 0 18 11 (by decide)).1

/-- Claim C9: whenever the located end record (the one the scan lands on)
violates the single-disk invariant, jz_read_end_record fails with the
multi-disk message, so ZipIterator::new propagates the same error and no
iterator — hence no entry — is ever produced. -/
theorem claim9_multidisk (s : ByteStream) (j : Nat)
    (hsmall : END_RECORD_SIZE < s.size)
    (hf : findSigFrom s (scanBase s) (readBytesLen s - END_RECORD_SIZE) = some j)
    (hmd : (decodeEndRecord s (scanBase s + j)).disk_number ≠ 0 ∨
      (decodeEndRecord s (scanBase s + j)).central_directory_disk_number ≠ 0 ∨
      (decodeEndRecord s (scanBase s + j)).num_entries ≠
        (decodeEndRecord s (scanBase s + j)).num_entries_this_disk) :
    jz_read_end_record s = Except.error msgMultiDisk ∧
    ZipIterator.new s = Except.error msgMultiDisk := by
  have h : jz_read_end_record s = Except.error msgMultiDisk := by
    rw [jz_read_end_record, if_neg (by omega), hf]
    exact if_pos hmd
  exact ⟨h, by rw [ZipIterator.new, h]⟩

/-- Witness for claim9_multidisk: streamMultiDisk declares disk_number 1. -/
theorem claim9_witness :
    jz_read_end_record streamMultiDisk = Except.error msgMultiDisk ∧
    ZipIterator.new streamMultiDisk = Except.error msgMultiDisk :=
  claim9_multidisk streamMultiDisk 1 (by decide) (by decide) (by decide)

/-- Claim C10: the public header accessor of ZipEntry returns the unit value
for every entry — it is constant, so none of the header metadata is
observable through it — while the buffer and filename accessors expose
exactly the entry's buffer and filename fields. -/
theorem claim10_header_discarded :
    ∀ e1 e2 : ZipEntry, ZipEntry.headerAccessor e1 = () ∧
      ZipEntry.headerAccessor e1 = ZipEntry.headerAccessor e2 ∧
      ZipEntry.bufferAccessor e1 = e1.buffer ∧
      ZipEntry.filenameAccessor e1 = e1.filename :=
  fun _ _ => ⟨rfl, rfl, rfl, rfl⟩
